import Mathlib

set_option linter.unusedVariables false
set_option linter.unreachableTactic false
set_option linter.unusedTactic false

/-!
Shallow embedding of the customer-map backend core: the geocoding service
(`backend/services/geocoding_service.py`) and the location-radius search
(`backend/database.py` together with the filter model in `backend/models.py`),
with theorems checking the specification's claims about them.

The external Google Maps client is modelled as an oracle: a function giving
the provider's outcome for each successive attempt.  Coordinates handled by
the geocoding wrapper are modelled as rationals (the wrapper only moves them
around); the Haversine arithmetic of the radius search is modelled over the
reals.
-/

namespace CustomerMap

/-- A provider geocoding result entry: the `geometry.location` of one result. -/
structure GeoLoc where
  lat : ℚ
  lng : ℚ
deriving DecidableEq

/-- Outcome of one call to the external provider's `geocode`: a reply with a
(possibly empty) result list, a provider-reported API error
(`googlemaps.exceptions.ApiError`), or any other exception. -/
inductive GeocodeOutcome where
  | success : List GeoLoc → GeocodeOutcome
  | apiError : GeocodeOutcome
  | otherError : GeocodeOutcome
deriving DecidableEq

/-- One provider attempt performed by `_geocode_with_retry`: its 0-based index
in the loop, the provider's outcome, and the sleep performed after it, if any. -/
structure AttemptLog where
  idx : Nat
  outcome : GeocodeOutcome
  wait : Option ℚ
deriving DecidableEq

/-- The `for attempt in range(max_retries)` loop body of
`GeocodingService._geocode_with_retry`.  `p n` is the provider's behaviour on
attempt `n`, `d` is `retry_delay` and `mr` is `max_retries`; `fuel` counts the
loop iterations still available (the wrapper starts it at `mr` with
`attempt = 0`, so `fuel = mr - attempt` throughout).  Returns the `(lat, lng)`
outcome together with the log of provider attempts actually made.  A reply
with at least one result returns the first result's location; a reply with
zero results returns `(none, none)` at once; an API error sleeps
`d * (attempt + 1)` and retries (linear backoff, 1-based attempt number)
unless `attempt` was the final attempt (`attempt + 1 < mr` fails); any other
exception sleeps the constant `d` under the same proviso. -/
def retryLoop (p : Nat → GeocodeOutcome) (d : ℚ) (mr : Nat) :
    Nat → Nat → (Option ℚ × Option ℚ) × List AttemptLog
  | 0, _ => ((none, none), [])
  | fuel + 1, attempt =>
    match p attempt with
    | GeocodeOutcome.success (r :: rs) =>
        ((some r.lat, some r.lng), [⟨attempt, GeocodeOutcome.success (r :: rs), none⟩])
    | GeocodeOutcome.success [] =>
        ((none, none), [⟨attempt, GeocodeOutcome.success [], none⟩])
    | GeocodeOutcome.apiError =>
        if attempt + 1 < mr then
          let rest := retryLoop p d mr fuel (attempt + 1)
          (rest.1, ⟨attempt, GeocodeOutcome.apiError, some (d * (attempt + 1 : ℚ))⟩ :: rest.2)
        else
          ((none, none), [⟨attempt, GeocodeOutcome.apiError, none⟩])
    | GeocodeOutcome.otherError =>
        if attempt + 1 < mr then
          let rest := retryLoop p d mr fuel (attempt + 1)
          (rest.1, ⟨attempt, GeocodeOutcome.otherError, some d⟩ :: rest.2)
        else
          ((none, none), [⟨attempt, GeocodeOutcome.otherError, none⟩])

/-- `GeocodingService._geocode_with_retry`: with no client configured it
returns `(None, None)` without any provider call; otherwise it runs the retry
loop, `max_retries` iterations available, from attempt 0. -/
def geocode_with_retry (hasClient : Bool) (d : ℚ) (mr : Nat)
    (p : Nat → GeocodeOutcome) : (Option ℚ × Option ℚ) × List AttemptLog :=
  if hasClient then retryLoop p d mr mr 0 else ((none, none), [])

example :
    geocode_with_retry true 1 3 (fun _ => GeocodeOutcome.apiError)
      = ((none, none),
         [⟨0, GeocodeOutcome.apiError, some 1⟩,
          ⟨1, GeocodeOutcome.apiError, some 2⟩,
          ⟨2, GeocodeOutcome.apiError, none⟩]) := by
  norm_num [geocode_with_retry, retryLoop]

example :
    geocode_with_retry true 1 3
        (fun n => if n < 2 then GeocodeOutcome.otherError
                  else GeocodeOutcome.success [⟨1, 2⟩])
      = ((some 1, some 2),
         [⟨0, GeocodeOutcome.otherError, some 1⟩,
          ⟨1, GeocodeOutcome.otherError, some 1⟩,
          ⟨2, GeocodeOutcome.success [⟨1, 2⟩], none⟩]) := by
  norm_num [geocode_with_retry, retryLoop]

/-- The memo table of the `lru_cache`-decorated `_cached_geocode`, most
recently used entry first.  Keys are the full argument tuples
`(address_hash, address)` that `lru_cache` sees. -/
abbrev GeoCache := List ((String × String) × (Option ℚ × Option ℚ))

/-- The `maxsize` of the `lru_cache` on `_cached_geocode`. -/
def cacheCapacity : Nat := 1000

/-- Cache lookup by exact argument tuple, as `lru_cache` performs it. -/
def cacheFind (c : GeoCache) (k : String × String) : Option (Option ℚ × Option ℚ) :=
  (c.find? (fun e => decide (e.1 = k))).map (fun e => e.2)

/-- On a cache hit, `lru_cache` moves the entry to the most-recently-used
position. -/
def cacheTouch (c : GeoCache) (k : String × String) (v : Option ℚ × Option ℚ) :
    GeoCache :=
  (k, v) :: c.filter (fun e => decide (e.1 ≠ k))

/-- On a cache miss, `lru_cache` records the new entry as most recently used
and evicts the least-recently-used entry when over capacity. -/
def cacheInsert (c : GeoCache) (k : String × String) (v : Option ℚ × Option ℚ) :
    GeoCache :=
  ((k, v) :: c).take cacheCapacity

/-- Python's `str.strip()`: remove leading and trailing whitespace. -/
def pyStrip (s : String) : String :=
  ⟨((s.data.dropWhile Char.isWhitespace).reverse.dropWhile Char.isWhitespace).reverse⟩

/-- Python's `str.lower()`: lowercase every character. -/
def pyLower (s : String) : String :=
  ⟨s.data.map Char.toLower⟩

/-- `GeocodingService._get_cache_key`: the md5 hex digest of the lowercased
address.  The hash itself is an external primitive, a parameter `md5` here. -/
def get_cache_key (md5 : String → String) (address : String) : String :=
  md5 (pyLower address)

/-- `GeocodingService.get_coordinates`: an empty or whitespace-only address is
rejected up front with `(None, None)`; otherwise the address is stripped and
the `lru_cache`-backed `_cached_geocode (address_hash, address)` is consulted,
running `_geocode_with_retry` on a miss and memoizing its outcome.  Returns the
coordinate outcome, the updated cache, and the log of provider attempts made
by this call. -/
def get_coordinates (md5 : String → String) (hasClient : Bool) (d : ℚ) (mr : Nat)
    (p : Nat → GeocodeOutcome) (cache : GeoCache) (address : String) :
    (Option ℚ × Option ℚ) × GeoCache × List AttemptLog :=
  if pyStrip address = "" then ((none, none), cache, [])
  else
    let a := pyStrip address
    let k := (get_cache_key md5 a, a)
    match cacheFind cache k with
    | some v => (v, cacheTouch cache k v, [])
    | none =>
        let out := geocode_with_retry hasClient d mr p
        (out.1, cacheInsert cache k out.1, out.2)

/-- One entry of a `batch_geocode` result: the address, its coordinates and the
success flag as built by the code, plus the bookkeeping the model records: how
many provider calls this entry made and whether a delay was slept after it
(`i < len(addresses) - 1`). -/
structure BatchEntry where
  address : String
  lat : Option ℚ
  lng : Option ℚ
  success : Bool
  providerCalls : Nat
  sleptAfter : Bool
deriving DecidableEq

/-- `GeocodingService.batch_geocode`: geocode each address in order through
`get_coordinates` (so through the cache), record `success` iff both
coordinates are present, and sleep a fixed small delay after every address
except the last.  `p a` is the provider's behaviour for address `a`. -/
def batch_geocode (md5 : String → String) (hasClient : Bool) (d : ℚ) (mr : Nat)
    (p : String → Nat → GeocodeOutcome) (cache : GeoCache) :
    List String → List BatchEntry × GeoCache
  | [] => ([], cache)
  | a :: rest =>
      let out := get_coordinates md5 hasClient d mr (p a) cache a
      let entry : BatchEntry :=
        ⟨a, out.1.1, out.1.2, out.1.1.isSome && out.1.2.isSome,
         out.2.2.length, !rest.isEmpty⟩
      let tail := batch_geocode md5 hasClient d mr p out.2.1 rest
      (entry :: tail.1, tail.2)

/-- Outcome of one call to the external provider's `reverse_geocode`: a reply
listing formatted addresses, an API error, or any other exception. -/
inductive ReverseOutcome where
  | success : List String → ReverseOutcome
  | apiError : ReverseOutcome
  | otherError : ReverseOutcome
deriving DecidableEq

/-- One provider attempt performed by `reverse_geocode`, with the sleep
performed after it, if any. -/
structure ReverseAttemptLog where
  idx : Nat
  outcome : ReverseOutcome
  wait : Option ℚ
deriving DecidableEq

/-- The `for attempt in range(max_retries)` loop of
`GeocodingService.reverse_geocode`, identical in shape to the forward retry
loop: first formatted address on success, `None` at once on an empty result
list, linear backoff `d * (attempt + 1)` on an API error and constant `d`
otherwise, with no sleep after the final attempt. -/
def reverseRetryLoop (q : Nat → ReverseOutcome) (d : ℚ) (mr : Nat) :
    Nat → Nat → Option String × List ReverseAttemptLog
  | 0, _ => (none, [])
  | fuel + 1, attempt =>
    match q attempt with
    | ReverseOutcome.success (s :: ss) =>
        (some s, [⟨attempt, ReverseOutcome.success (s :: ss), none⟩])
    | ReverseOutcome.success [] =>
        (none, [⟨attempt, ReverseOutcome.success [], none⟩])
    | ReverseOutcome.apiError =>
        if attempt + 1 < mr then
          let rest := reverseRetryLoop q d mr fuel (attempt + 1)
          (rest.1, ⟨attempt, ReverseOutcome.apiError, some (d * (attempt + 1 : ℚ))⟩ :: rest.2)
        else
          (none, [⟨attempt, ReverseOutcome.apiError, none⟩])
    | ReverseOutcome.otherError =>
        if attempt + 1 < mr then
          let rest := reverseRetryLoop q d mr fuel (attempt + 1)
          (rest.1, ⟨attempt, ReverseOutcome.otherError, some d⟩ :: rest.2)
        else
          (none, [⟨attempt, ReverseOutcome.otherError, none⟩])

/-- `GeocodingService.reverse_geocode`: with no client configured it returns
`None` at once with no provider call; otherwise it passes the coordinates
straight to the provider's retry loop.  The latitude and longitude arguments
are forwarded to the provider (absorbed here into the oracle `q`) and are
never range-checked by the code. -/
def reverse_geocode (hasClient : Bool) (d : ℚ) (mr : Nat)
    (q : Nat → ReverseOutcome) (lat lng : ℚ) :
    Option String × List ReverseAttemptLog :=
  if hasClient then reverseRetryLoop q d mr mr 0 else (none, [])

/-- `GeocodingService.validate_coordinates`:
`-90 <= lat <= 90 and -180 <= lng <= 180`.  Defined by the service but invoked
by none of its operations. -/
def validate_coordinates (lat lng : ℚ) : Bool :=
  decide (-90 ≤ lat) && decide (lat ≤ 90) && decide (-180 ≤ lng) && decide (lng ≤ 180)

example :
    get_coordinates (fun s => s) true 1 3 (fun _ => GeocodeOutcome.success [⟨3, 4⟩]) [] " Main St "
      = ((some 3, some 4),
         [(("main st", "Main St"), (some 3, some 4))],
         [⟨0, GeocodeOutcome.success [⟨3, 4⟩], none⟩]) := by decide

/-! ### Lemmas about the retry loop -/

/-- The loop makes at most `fuel` provider attempts. -/
theorem retryLoop_length_le (p : Nat → GeocodeOutcome) (d : ℚ) (mr : Nat) :
    ∀ fuel k, (retryLoop p d mr fuel k).2.length ≤ fuel := by
  intro fuel
  induction fuel with
  | zero => intro k; simp [retryLoop]
  | succ fuel ih =>
      intro k
      cases hp : p k with
      | success results =>
          cases results <;> simp [retryLoop, hp]
      | apiError =>
          by_cases h2 : k + 1 < mr <;> simp [retryLoop, hp, h2]
          exact ih (k + 1)
      | otherError =>
          by_cases h2 : k + 1 < mr <;> simp [retryLoop, hp, h2]
          exact ih (k + 1)

/-- Every logged attempt records the provider's outcome at its own index, an
index in `[k, k + fuel)`, and exactly the sleep the code performs for that
outcome: none on success, `d * (idx + 1)` after an API error and the constant
`d` after any other error, except after the final attempt. -/
theorem retryLoop_mem_spec (p : Nat → GeocodeOutcome) (d : ℚ) (mr : Nat) :
    ∀ fuel k a, a ∈ (retryLoop p d mr fuel k).2 →
      a.outcome = p a.idx ∧ k ≤ a.idx ∧ a.idx < k + fuel ∧
      a.wait = (match p a.idx with
        | GeocodeOutcome.success _ => none
        | GeocodeOutcome.apiError =>
            if a.idx + 1 < mr then some (d * (a.idx + 1 : ℚ)) else none
        | GeocodeOutcome.otherError =>
            if a.idx + 1 < mr then some d else none) := by
  intro fuel
  induction fuel with
  | zero => intro k a ha; simp [retryLoop] at ha
  | succ fuel ih =>
      intro k a ha
      cases hp : p k with
      | success results =>
          cases results with
          | nil =>
              simp [retryLoop, hp] at ha
              subst ha
              simp [hp] <;> omega
          | cons r rs =>
              simp [retryLoop, hp] at ha
              subst ha
              simp [hp] <;> omega
      | apiError =>
          by_cases h2 : k + 1 < mr
          · simp [retryLoop, hp, h2] at ha
            rcases ha with ha | ha
            · subst ha
              simp [hp, h2] <;> omega
            · obtain ⟨h1, h2', h3, h4⟩ := ih (k + 1) a ha
              exact ⟨h1, by omega, by omega, h4⟩
          · simp [retryLoop, hp, h2] at ha
            subst ha
            simp [hp, h2] <;> omega
      | otherError =>
          by_cases h2 : k + 1 < mr
          · simp [retryLoop, hp, h2] at ha
            rcases ha with ha | ha
            · subst ha
              simp [hp, h2] <;> omega
            · obtain ⟨h1, h2', h3, h4⟩ := ih (k + 1) a ha
              exact ⟨h1, by omega, by omega, h4⟩
          · simp [retryLoop, hp, h2] at ha
            subst ha
            simp [hp, h2] <;> omega

/-- With fuel left, the loop performs at least one attempt. -/
theorem retryLoop_ne_nil (p : Nat → GeocodeOutcome) (d : ℚ) (mr fuel k : Nat)
    (h : 0 < fuel) : (retryLoop p d mr fuel k).2 ≠ [] := by
  cases fuel with
  | zero => omega
  | succ fuel =>
      cases hp : p k with
      | success results => cases results <;> simp [retryLoop, hp]
      | apiError => by_cases h2 : k + 1 < mr <;> simp [retryLoop, hp, h2]
      | otherError => by_cases h2 : k + 1 < mr <;> simp [retryLoop, hp, h2]

/-- When the fuel covers all remaining attempts (as the wrapper arranges), the
last attempt performed is never followed by a sleep. -/
theorem retryLoop_last_wait (p : Nat → GeocodeOutcome) (d : ℚ) (mr : Nat) :
    ∀ fuel k, mr ≤ fuel + k →
      ∀ a, (retryLoop p d mr fuel k).2.getLast? = some a → a.wait = none := by
  intro fuel
  induction fuel with
  | zero => intro k hk a ha; simp [retryLoop] at ha
  | succ fuel ih =>
      intro k hk a ha
      cases hp : p k with
      | success results =>
          cases results <;> simp [retryLoop, hp] at ha <;> simp [← ha]
      | apiError =>
          by_cases h2 : k + 1 < mr
          · have hfuel : 0 < fuel := by omega
            obtain ⟨y, ys, hrest⟩ :=
              List.exists_cons_of_ne_nil (retryLoop_ne_nil p d mr fuel (k + 1) hfuel)
            simp [retryLoop, hp, h2, hrest] at ha
            refine ih (k + 1) (by omega) a ?_
            rw [hrest]
            simpa using ha
          · simp [retryLoop, hp, h2] at ha
            simp [← ha]
      | otherError =>
          by_cases h2 : k + 1 < mr
          · have hfuel : 0 < fuel := by omega
            obtain ⟨y, ys, hrest⟩ :=
              List.exists_cons_of_ne_nil (retryLoop_ne_nil p d mr fuel (k + 1) hfuel)
            simp [retryLoop, hp, h2, hrest] at ha
            refine ih (k + 1) (by omega) a ?_
            rw [hrest]
            simpa using ha
          · simp [retryLoop, hp, h2] at ha
            simp [← ha]

/-- A logged provider reply with at least one result is the last attempt, and
the loop's value is the first result's location. -/
theorem retryLoop_success_result (p : Nat → GeocodeOutcome) (d : ℚ) (mr : Nat) :
    ∀ fuel k a, a ∈ (retryLoop p d mr fuel k).2 →
      ∀ r rs, a.outcome = GeocodeOutcome.success (r :: rs) →
        (retryLoop p d mr fuel k).1 = (some r.lat, some r.lng) ∧
        (retryLoop p d mr fuel k).2.getLast? = some a := by
  intro fuel
  induction fuel with
  | zero => intro k a ha; simp [retryLoop] at ha
  | succ fuel ih =>
      intro k a ha r rs hout
      cases hp : p k with
      | success results =>
          cases results with
          | nil =>
              simp [retryLoop, hp] at ha
              subst ha
              simp at hout
          | cons r' rs' =>
              simp [retryLoop, hp] at ha
              subst ha
              simp at hout
              obtain ⟨hr, hrs⟩ := hout
              subst hr
              simp [retryLoop, hp]
      | apiError =>
          by_cases h2 : k + 1 < mr
          · simp [retryLoop, hp, h2] at ha
            rcases ha with ha | ha
            · subst ha; simp at hout
            · obtain ⟨h1, hlast⟩ := ih (k + 1) a ha r rs hout
              have hne : (retryLoop p d mr fuel (k + 1)).2 ≠ [] := by
                intro hnil
                rw [hnil] at hlast
                simp at hlast
              obtain ⟨y, ys, hrest⟩ := List.exists_cons_of_ne_nil hne
              constructor
              · simp [retryLoop, hp, h2, h1]
              · simp only [retryLoop, hp, h2, if_pos, hrest]
                rw [List.getLast?_cons_cons]
                rw [hrest] at hlast
                exact hlast
          · simp [retryLoop, hp, h2] at ha
            subst ha; simp at hout
      | otherError =>
          by_cases h2 : k + 1 < mr
          · simp [retryLoop, hp, h2] at ha
            rcases ha with ha | ha
            · subst ha; simp at hout
            · obtain ⟨h1, hlast⟩ := ih (k + 1) a ha r rs hout
              have hne : (retryLoop p d mr fuel (k + 1)).2 ≠ [] := by
                intro hnil
                rw [hnil] at hlast
                simp at hlast
              obtain ⟨y, ys, hrest⟩ := List.exists_cons_of_ne_nil hne
              constructor
              · simp [retryLoop, hp, h2, h1]
              · simp only [retryLoop, hp, h2, if_pos, hrest]
                rw [List.getLast?_cons_cons]
                rw [hrest] at hlast
                exact hlast
          · simp [retryLoop, hp, h2] at ha
            subst ha; simp at hout

/-- A logged provider reply with zero results is the last attempt, and the
loop's value is `(none, none)`: no retry follows an empty result set. -/
theorem retryLoop_empty_result (p : Nat → GeocodeOutcome) (d : ℚ) (mr : Nat) :
    ∀ fuel k a, a ∈ (retryLoop p d mr fuel k).2 →
      a.outcome = GeocodeOutcome.success [] →
        (retryLoop p d mr fuel k).1 = (none, none) ∧
        (retryLoop p d mr fuel k).2.getLast? = some a := by
  intro fuel
  induction fuel with
  | zero => intro k a ha; simp [retryLoop] at ha
  | succ fuel ih =>
      intro k a ha hout
      cases hp : p k with
      | success results =>
          cases results with
          | nil =>
              simp [retryLoop, hp] at ha
              subst ha
              simp [retryLoop, hp]
          | cons r' rs' =>
              simp [retryLoop, hp] at ha
              subst ha
              simp at hout
      | apiError =>
          by_cases h2 : k + 1 < mr
          · simp [retryLoop, hp, h2] at ha
            rcases ha with ha | ha
            · subst ha; simp at hout
            · obtain ⟨h1, hlast⟩ := ih (k + 1) a ha hout
              have hne : (retryLoop p d mr fuel (k + 1)).2 ≠ [] := by
                intro hnil
                rw [hnil] at hlast
                simp at hlast
              obtain ⟨y, ys, hrest⟩ := List.exists_cons_of_ne_nil hne
              constructor
              · simp [retryLoop, hp, h2, h1]
              · simp only [retryLoop, hp, h2, if_pos, hrest]
                rw [List.getLast?_cons_cons]
                rw [hrest] at hlast
                exact hlast
          · simp [retryLoop, hp, h2] at ha
            subst ha; simp at hout
      | otherError =>
          by_cases h2 : k + 1 < mr
          · simp [retryLoop, hp, h2] at ha
            rcases ha with ha | ha
            · subst ha; simp at hout
            · obtain ⟨h1, hlast⟩ := ih (k + 1) a ha hout
              have hne : (retryLoop p d mr fuel (k + 1)).2 ≠ [] := by
                intro hnil
                rw [hnil] at hlast
                simp at hlast
              obtain ⟨y, ys, hrest⟩ := List.exists_cons_of_ne_nil hne
              constructor
              · simp [retryLoop, hp, h2, h1]
              · simp only [retryLoop, hp, h2, if_pos, hrest]
                rw [List.getLast?_cons_cons]
                rw [hrest] at hlast
                exact hlast
          · simp [retryLoop, hp, h2] at ha
            subst ha; simp at hout

/-- If the provider errors on every attempt, the loop exhausts its fuel, makes
exactly `fuel` attempts and returns `(none, none)`. -/
theorem retryLoop_exhaust (p : Nat → GeocodeOutcome) (d : ℚ) (mr : Nat) :
    ∀ fuel k,
      (∀ j, k ≤ j → j < mr →
        p j = GeocodeOutcome.apiError ∨ p j = GeocodeOutcome.otherError) →
      mr = fuel + k →
      (retryLoop p d mr fuel k).1 = (none, none) ∧
      (retryLoop p d mr fuel k).2.length = fuel := by
  intro fuel
  induction fuel with
  | zero => intro k herr hmr; simp [retryLoop]
  | succ fuel ih =>
      intro k herr hmr
      have hk : k < mr := by omega
      have hpk := herr k (Nat.le_refl k) hk
      cases fuel with
      | zero =>
          have h2 : ¬ k + 1 < mr := by omega
          rcases hpk with hp | hp <;> simp [retryLoop, hp, h2]
      | succ fuel' =>
          have h2 : k + 1 < mr := by omega
          have ihx := ih (k + 1) (fun j hj hj' => herr j (by omega) hj') (by omega)
          rcases hpk with hp | hp <;>
            simpa [retryLoop, hp, h2] using ihx

/-- The provider stub of the specification's retry test: it fails twice with an
API error, then replies with a single result at `(1, 2)`. -/
def pTwoFail : Nat → GeocodeOutcome :=
  fun n => if n < 2 then GeocodeOutcome.apiError else GeocodeOutcome.success [⟨1, 2⟩]

/-- A provider stub that fails on every attempt. -/
def pAllFail : Nat → GeocodeOutcome :=
  fun _ => GeocodeOutcome.apiError

/-- C1: For every non-empty address on a cache miss, resolve performs at most
`max_retries` provider attempts; after a provider-reported API error on
attempt `n` (1-based) it waits `retry_delay * n` before the next attempt,
after any other exception it waits the constant `retry_delay`, and it never
waits after the final attempt; a successful call with at least one result ends
the loop returning the first result's location; a successful call with zero
results returns Unresolved immediately with no further attempts; and after
exhausting all `max_retries` attempts it returns Unresolved, having made
exactly `max_retries` provider calls. -/
theorem resolve_retry_policy (p : Nat → GeocodeOutcome) (d : ℚ) (mr : Nat) :
    ((geocode_with_retry true d mr p).2.length ≤ mr)
    ∧ (∀ a ∈ (geocode_with_retry true d mr p).2,
        a.outcome = p a.idx ∧
        a.wait = (match p a.idx with
          | GeocodeOutcome.success _ => none
          | GeocodeOutcome.apiError =>
              if a.idx + 1 < mr then some (d * (a.idx + 1 : ℚ)) else none
          | GeocodeOutcome.otherError =>
              if a.idx + 1 < mr then some d else none))
    ∧ (∀ a, (geocode_with_retry true d mr p).2.getLast? = some a → a.wait = none)
    ∧ (∀ a ∈ (geocode_with_retry true d mr p).2, ∀ r rs,
        a.outcome = GeocodeOutcome.success (r :: rs) →
          (geocode_with_retry true d mr p).1 = (some r.lat, some r.lng) ∧
          (geocode_with_retry true d mr p).2.getLast? = some a)
    ∧ (∀ a ∈ (geocode_with_retry true d mr p).2,
        a.outcome = GeocodeOutcome.success [] →
          (geocode_with_retry true d mr p).1 = (none, none) ∧
          (geocode_with_retry true d mr p).2.getLast? = some a)
    ∧ ((∀ j, j < mr →
          p j = GeocodeOutcome.apiError ∨ p j = GeocodeOutcome.otherError) →
        (geocode_with_retry true d mr p).1 = (none, none) ∧
        (geocode_with_retry true d mr p).2.length = mr)
    ∧ (∀ md5 cache addr, pyStrip addr ≠ "" →
        cacheFind cache (get_cache_key md5 (pyStrip addr), pyStrip addr) = none →
        get_coordinates md5 true d mr p cache addr
          = ((geocode_with_retry true d mr p).1,
             cacheInsert cache (get_cache_key md5 (pyStrip addr), pyStrip addr)
               (geocode_with_retry true d mr p).1,
             (geocode_with_retry true d mr p).2)) := by
  have hgw : geocode_with_retry true d mr p = retryLoop p d mr mr 0 := by
    simp [geocode_with_retry]
  refine ⟨?_, ?_, ?_, ?_, ?_, ?_, ?_⟩
  · rw [hgw]; exact retryLoop_length_le p d mr mr 0
  · rw [hgw]
    intro a ha
    obtain ⟨h1, _, _, h4⟩ := retryLoop_mem_spec p d mr mr 0 a ha
    exact ⟨h1, h4⟩
  · rw [hgw]
    intro a ha
    exact retryLoop_last_wait p d mr mr 0 (by omega) a ha
  · rw [hgw]
    intro a ha r rs hout
    exact retryLoop_success_result p d mr mr 0 a ha r rs hout
  · rw [hgw]
    intro a ha hout
    exact retryLoop_empty_result p d mr mr 0 a ha hout
  · rw [hgw]
    intro herr
    exact retryLoop_exhaust p d mr mr 0 (fun j _ hj => herr j hj) (by omega)
  · intro md5 cache addr hne hmiss
    simp [get_coordinates, hne, hmiss]

/-- Witness for C1: the specification's own stub scenarios at `max_retries = 3`
and `retry_delay = 1`.  The fail-twice-then-succeed stub ends with the success
result after exactly 3 provider attempts, and the always-failing stub returns
Unresolved after exactly 3 attempts. -/
theorem resolve_retry_policy_witness :
    (geocode_with_retry true 1 3 pTwoFail).1 = (some 1, some 2)
    ∧ (geocode_with_retry true 1 3 pTwoFail).2.length = 3
    ∧ (geocode_with_retry true 1 3 pAllFail).1 = (none, none)
    ∧ (geocode_with_retry true 1 3 pAllFail).2.length = 3 := by
  have hmem : (⟨2, GeocodeOutcome.success [⟨1, 2⟩], none⟩ : AttemptLog)
      ∈ (geocode_with_retry true 1 3 pTwoFail).2 := by
    norm_num [geocode_with_retry, retryLoop, pTwoFail]
  have hlen : (geocode_with_retry true 1 3 pTwoFail).2.length = 3 := by
    norm_num [geocode_with_retry, retryLoop, pTwoFail]
  have hsucc :=
    ((resolve_retry_policy pTwoFail 1 3).2.2.2.1 _ hmem ⟨1, 2⟩ [] rfl).1
  have hfail :=
    (resolve_retry_policy pAllFail 1 3).2.2.2.2.2.1
      (fun j _ => Or.inl rfl)
  exact ⟨hsucc, hlen, hfail.1, hfail.2⟩

/-! ### Lemmas about the memo cache -/

/-- A key just promoted to most-recently-used is found, with its value. -/
theorem cacheFind_cacheTouch (c : GeoCache) (k : String × String)
    (v : Option ℚ × Option ℚ) : cacheFind (cacheTouch c k v) k = some v := by
  simp [cacheFind, cacheTouch]

/-- A key just inserted on a miss is found, with its value. -/
theorem cacheFind_cacheInsert (c : GeoCache) (k : String × String)
    (v : Option ℚ × Option ℚ) : cacheFind (cacheInsert c k v) k = some v := by
  have h : cacheInsert c k v = (k, v) :: c.take 999 := rfl
  rw [h]
  simp [cacheFind]

/-- A value found in the cache belongs to one of its entries. -/
theorem cacheFind_eq_some_mem (c : GeoCache) (k : String × String)
    (v : Option ℚ × Option ℚ) (h : cacheFind c k = some v) :
    ∃ e, e ∈ c ∧ e.2 = v := by
  unfold cacheFind at h
  cases hf : c.find? (fun e => decide (e.1 = k)) with
  | none => rw [hf] at h; simp at h
  | some e =>
      rw [hf] at h
      simp at h
      exact ⟨e, List.mem_of_find?_eq_some hf, h⟩

/-- C2: For every address string, calling resolve twice in succession without
an intervening cache clear yields an identical result on both calls, and the
second call makes zero external provider calls — whether the memoized outcome
was a success or a failure. -/
theorem resolve_idempotent (md5 : String → String) (hasClient : Bool) (d : ℚ)
    (mr : Nat) (p : Nat → GeocodeOutcome) (cache : GeoCache) (addr : String) :
    (get_coordinates md5 hasClient d mr p
        (get_coordinates md5 hasClient d mr p cache addr).2.1 addr).1
      = (get_coordinates md5 hasClient d mr p cache addr).1
    ∧ (get_coordinates md5 hasClient d mr p
        (get_coordinates md5 hasClient d mr p cache addr).2.1 addr).2.2 = [] := by
  by_cases hempty : pyStrip addr = ""
  · simp [get_coordinates, hempty]
  · cases hfind : cacheFind cache (get_cache_key md5 (pyStrip addr), pyStrip addr) with
    | some v =>
        simp [get_coordinates, hempty, hfind, cacheFind_cacheTouch]
    | none =>
        simp [get_coordinates, hempty, hfind, cacheFind_cacheInsert]

/-- C3 (the claim fails on the code): although `"A"` and `"a"` are equal after
trimming and case-folding — so `_get_cache_key` gives them the same hash — the
`lru_cache` on `_cached_geocode` keys on the full argument tuple
`(address_hash, address)`, which still contains the case-sensitive address.
Resolving `"A"` and then `"a"` therefore misses the cache and performs one
provider call on the second resolve instead of returning the memoized result. -/
theorem cache_key_not_case_folded :
    pyLower (pyStrip "A") = pyLower (pyStrip "a")
    ∧ (get_coordinates (fun s => s) true 1 3
        (fun _ => GeocodeOutcome.success [⟨1, 2⟩]) [] "A").1 = (some 1, some 2)
    ∧ ((get_coordinates (fun s => s) true 1 3
        (fun _ => GeocodeOutcome.success [⟨1, 2⟩])
        (get_coordinates (fun s => s) true 1 3
          (fun _ => GeocodeOutcome.success [⟨1, 2⟩]) [] "A").2.1 "a").2.2).length = 1 := by
  decide

/-- C4: For every empty or whitespace-only address string, resolve returns
Unresolved immediately, leaving the cache untouched and making zero provider
calls and zero retry attempts. -/
theorem resolve_empty_address (md5 : String → String) (hasClient : Bool) (d : ℚ)
    (mr : Nat) (p : Nat → GeocodeOutcome) (cache : GeoCache) (addr : String)
    (h : pyStrip addr = "") :
    get_coordinates md5 hasClient d mr p cache addr = ((none, none), cache, []) := by
  simp [get_coordinates, h]

/-- Witness for C4: a whitespace-only address is rejected with no provider
attempt and no cache change. -/
theorem resolve_empty_address_witness :
    get_coordinates (fun s => s) true 1 3 pAllFail [] "  " = ((none, none), [], []) :=
  resolve_empty_address (fun s => s) true 1 3 pAllFail [] "  " (by decide)

/-- With fuel left, the reverse loop performs at least one attempt. -/
theorem reverseRetryLoop_ne_nil (q : Nat → ReverseOutcome) (d : ℚ)
    (mr fuel k : Nat) (h : 0 < fuel) : (reverseRetryLoop q d mr fuel k).2 ≠ [] := by
  cases fuel with
  | zero => omega
  | succ fuel =>
      cases hq : q k with
      | success results => cases results <;> simp [reverseRetryLoop, hq]
      | apiError => by_cases h2 : k + 1 < mr <;> simp [reverseRetryLoop, hq, h2]
      | otherError => by_cases h2 : k + 1 < mr <;> simp [reverseRetryLoop, hq, h2]

/-- C8 counterexample: with latitude 200 (outside `[-90, 90]`) and an
always-failing provider, `reverse_geocode` does not detect the invalid input:
it contacts the external provider on all three retry attempts.  Only the
never-invoked helper `validate_coordinates` would have classified the input as
out of range. -/
theorem reverse_out_of_range_contacts_provider :
    validate_coordinates 200 0 = false
    ∧ (reverse_geocode true 1 3 (fun _ => ReverseOutcome.apiError) 200 0).2.length = 3 := by
  constructor
  · decide
  · norm_num [reverse_geocode, reverseRetryLoop]

/-- C8 as amended: an out-of-range coordinate makes `validate_coordinates`
report `false`, but `reverse_geocode` never consults it: its behaviour is
identical to that on in-range coordinates, and with retries available it
still contacts the external provider. -/
theorem reverse_no_range_check (d : ℚ) (mr : Nat) (q : Nat → ReverseOutcome)
    (lat lng : ℚ)
    (hout : lat < -90 ∨ 90 < lat ∨ lng < -180 ∨ 180 < lng) :
    validate_coordinates lat lng = false
    ∧ reverse_geocode true d mr q lat lng = reverse_geocode true d mr q 0 0
    ∧ (0 < mr → (reverse_geocode true d mr q lat lng).2 ≠ []) := by
  refine ⟨?_, rfl, ?_⟩
  · rcases hout with h | h | h | h
    · have hn : ¬ (-90 ≤ lat) := not_le.mpr h
      simp [validate_coordinates, hn]
    · have hn : ¬ (lat ≤ 90) := not_le.mpr h
      simp [validate_coordinates, hn]
    · have hn : ¬ (-180 ≤ lng) := not_le.mpr h
      simp [validate_coordinates, hn]
    · have hn : ¬ (lng ≤ 180) := not_le.mpr h
      simp [validate_coordinates, hn]
  · intro hmr
    simp only [reverse_geocode, if_pos]
    exact reverseRetryLoop_ne_nil q d mr mr 0 hmr

/-- Witness for C8's amended statement at latitude 200. -/
theorem reverse_no_range_check_witness :
    validate_coordinates 200 0 = false
    ∧ (reverse_geocode true 1 3 (fun _ => ReverseOutcome.otherError) 200 0).2 ≠ [] := by
  have h := reverse_no_range_check 1 3 (fun _ => ReverseOutcome.otherError) 200 0
    (Or.inr (Or.inl (by norm_num)))
  exact ⟨h.1, h.2.2 (by norm_num)⟩

/-- The sleeps `batch_geocode` performs on a list of `n` addresses: after the
item at position `i` exactly when `i` is not the last position. -/
def sleepsAfter (n : Nat) : List Bool :=
  (List.range n).map (fun i => decide (i + 1 < n))

theorem sleepsAfter_succ (n : Nat) :
    sleepsAfter (n + 1) = decide (0 < n) :: sleepsAfter n := by
  unfold sleepsAfter
  rw [List.range_succ_eq_map]
  simp only [List.map_cons, List.map_map]
  congr 1
  · exact decide_eq_decide.mpr (by omega)
  · apply List.map_congr_left
    intro i hi
    simp only [Function.comp_apply, Nat.succ_eq_add_one]
    exact decide_eq_decide.mpr (by omega)

/-- C9 counterexample: batching the same address twice with a succeeding
provider, the second entry is served from the cache (zero provider calls), yet
the fixed delay after the first item — the delay between the sole external
call and the cache-served entry — is still slept: the code sleeps after every
item except the last, regardless of cache hits. -/
theorem batch_delay_not_skipped_for_cached :
    ((batch_geocode (fun s => s) true 1 3
        (fun _ _ => GeocodeOutcome.success [⟨1, 2⟩]) [] ["a", "a"]).1.map
      (fun e => (e.providerCalls, e.sleptAfter)))
    = [(1, true), (0, false)] := by
  decide

/-- C9 as amended: `batch_geocode` returns one entry per input address, in
input order, with `success` true iff both coordinates were resolved; the
fixed delay is slept after every item except the last, whether or not the
entry was served from the cache; and no per-address outcome (including
provider failure on every attempt) stops the remaining addresses from being
processed, for any provider behaviour `p`. -/
theorem batch_geocode_spec (md5 : String → String) (hasClient : Bool) (d : ℚ)
    (mr : Nat) (p : String → Nat → GeocodeOutcome) (cache : GeoCache)
    (addrs : List String) :
    (batch_geocode md5 hasClient d mr p cache addrs).1.map (fun e => e.address) = addrs
    ∧ (∀ e ∈ (batch_geocode md5 hasClient d mr p cache addrs).1,
        e.success = (e.lat.isSome && e.lng.isSome))
    ∧ (batch_geocode md5 hasClient d mr p cache addrs).1.map (fun e => e.sleptAfter)
        = sleepsAfter addrs.length := by
  induction addrs generalizing cache with
  | nil => simp [batch_geocode, sleepsAfter]
  | cons a rest ih =>
      obtain ⟨ih1, ih2, ih3⟩ :=
        ih (get_coordinates md5 hasClient d mr (p a) cache a).2.1
      refine ⟨?_, ?_, ?_⟩
      · simpa [batch_geocode] using ih1
      · intro e he
        simp [batch_geocode] at he
        rcases he with he | he
        · subst he; rfl
        · exact ih2 e he
      · simp only [batch_geocode, List.map_cons, List.length_cons, sleepsAfter_succ]
        rw [ih3]
        congr 1
        cases rest <;> simp

/-- C10: constructed without an API key there is no provider client, and for
every input, resolve and the reverse operation return Unresolved immediately:
zero provider attempts, no retries and no backoff waits, and every value the
cache can hold remains the Unresolved pair. -/
theorem no_client_always_unresolved (md5 : String → String) (d : ℚ) (mr : Nat)
    (p : Nat → GeocodeOutcome) (q : Nat → ReverseOutcome) (cache : GeoCache)
    (addr : String) (lat lng : ℚ)
    (hcache : ∀ e ∈ cache, e.2 = (none, none)) :
    geocode_with_retry false d mr p = ((none, none), [])
    ∧ (get_coordinates md5 false d mr p cache addr).1 = (none, none)
    ∧ (get_coordinates md5 false d mr p cache addr).2.2 = []
    ∧ (∀ e ∈ (get_coordinates md5 false d mr p cache addr).2.1, e.2 = (none, none))
    ∧ reverse_geocode false d mr q lat lng = (none, []) := by
  refine ⟨by simp [geocode_with_retry], ?_, ?_, ?_, by simp [reverse_geocode]⟩
    <;> by_cases hempty : pyStrip addr = ""
  · simp [get_coordinates, hempty]
  · cases hfind : cacheFind cache (get_cache_key md5 (pyStrip addr), pyStrip addr) with
    | some v =>
        obtain ⟨e, he, hev⟩ := cacheFind_eq_some_mem _ _ _ hfind
        simp [get_coordinates, hempty, hfind, ← hev, hcache e he]
    | none =>
        simp [get_coordinates, hempty, hfind, geocode_with_retry]
  · simp [get_coordinates, hempty]
  · cases hfind : cacheFind cache (get_cache_key md5 (pyStrip addr), pyStrip addr) with
    | some v => simp [get_coordinates, hempty, hfind]
    | none => simp [get_coordinates, hempty, hfind, geocode_with_retry]
  · intro x hx
    have hc : (get_coordinates md5 false d mr p cache addr).2.1 = cache := by
      simp [get_coordinates, hempty]
    rw [hc] at hx
    exact hcache x hx
  · cases hfind : cacheFind cache (get_cache_key md5 (pyStrip addr), pyStrip addr) with
    | some v =>
        obtain ⟨e, he, hev⟩ := cacheFind_eq_some_mem _ _ _ hfind
        intro x hx
        have hc : (get_coordinates md5 false d mr p cache addr).2.1
            = cacheTouch cache (get_cache_key md5 (pyStrip addr), pyStrip addr) v := by
          simp [get_coordinates, hempty, hfind]
        rw [hc] at hx
        rcases List.mem_cons.mp hx with hx | hx
        · rw [hx]
          rw [← hev]
          exact hcache e he
        · exact hcache x (List.mem_of_mem_filter hx)
    | none =>
        intro x hx
        have hc : (get_coordinates md5 false d mr p cache addr).2.1
            = cacheInsert cache (get_cache_key md5 (pyStrip addr), pyStrip addr) (none, none) := by
          simp [get_coordinates, hempty, hfind, geocode_with_retry]
        rw [hc] at hx
        rcases List.mem_cons.mp (List.mem_of_mem_take hx) with hx | hx
        · rw [hx]
        · exact hcache x hx

/-- Witness for C10: with no client, resolving an address makes no provider
attempt and reverse geocoding returns Unresolved at once. -/
theorem no_client_always_unresolved_witness :
    (get_coordinates (fun s => s) false 1 3 pAllFail [] "x").1 = (none, none)
    ∧ (get_coordinates (fun s => s) false 1 3 pAllFail [] "x").2.2 = []
    ∧ reverse_geocode false 1 3 (fun _ => ReverseOutcome.apiError) 200 0 = (none, []) := by
  have h := no_client_always_unresolved (fun s => s) 1 3 pAllFail
    (fun _ => ReverseOutcome.apiError) [] "x" 200 0 (by simp)
  exact ⟨h.2.1, h.2.2.1, h.2.2.2.2⟩

/-! ## Proximity search (`CustomerDirectoryRepository.search_addresses_by_location`) -/

/-- Python's `math.atan2 y x` on real arguments. -/
noncomputable def atan2 (y x : ℝ) : ℝ :=
  if 0 < x then Real.arctan (y / x)
  else if x < 0 then
    (if 0 ≤ y then Real.arctan (y / x) + Real.pi else Real.arctan (y / x) - Real.pi)
  else
    (if 0 < y then Real.pi / 2 else if y < 0 then -(Real.pi / 2) else 0)

/-- `CustomerDirectoryRepository._calculate_distance`: great-circle distance in
kilometres by the Haversine formula with Earth radius `R = 6371` km, degrees
converted to radians by `math.radians` (`x * π / 180`). -/
noncomputable def calculate_distance (lat1 lng1 lat2 lng2 : ℝ) : ℝ :=
  let R : ℝ := 6371
  let lat1_rad := lat1 * Real.pi / 180
  let lng1_rad := lng1 * Real.pi / 180
  let lat2_rad := lat2 * Real.pi / 180
  let lng2_rad := lng2 * Real.pi / 180
  let dlat := lat2_rad - lat1_rad
  let dlng := lng2_rad - lng1_rad
  let a := Real.sin (dlat / 2) ^ 2
    + Real.cos lat1_rad * Real.cos lat2_rad * Real.sin (dlng / 2) ^ 2
  let c := 2 * atan2 (Real.sqrt a) (Real.sqrt (1 - a))
  R * c

/-- The columns of the `customer_directory` table that the location search
reads: the nullable coordinate pair and the string filter columns. -/
structure DBRecord where
  lat : Option ℝ
  lng : Option ℝ
  country : String
  state : String
  city : String

/-- `LocationSearchFilters` (backend/models.py): search center, radius and
optional narrowing filters, plus pagination. -/
structure LocationSearchFilters where
  center_lat : ℝ
  center_lng : ℝ
  radius_km : ℝ
  country : Option String
  state : Option String
  city : Option String
  page : Nat
  page_size : Nat

/-- The pydantic field constraints on `LocationSearchFilters`: center latitude
in `[-90, 90]`, center longitude in `[-180, 180]`, radius strictly positive
and at most 1000 km, page at least 1, page size between 1 and 100. -/
def LocationSearchFilters.isValid (f : LocationSearchFilters) : Prop :=
  -90 ≤ f.center_lat ∧ f.center_lat ≤ 90
    ∧ -180 ≤ f.center_lng ∧ f.center_lng ≤ 180
    ∧ 0 < f.radius_km ∧ f.radius_km ≤ 1000
    ∧ 1 ≤ f.page ∧ 1 ≤ f.page_size ∧ f.page_size ≤ 100

/-- Whether `nee` occurs as a contiguous run at the head of `hay`. -/
def leadMatch : List Char → List Char → Bool
  | [], _ => true
  | _ :: _, [] => false
  | a :: s, b :: t => a == b && leadMatch s t

/-- Whether `nee` occurs contiguously anywhere in `hay`. -/
def hasRun (nee : List Char) : List Char → Bool
  | [] => nee.isEmpty
  | c :: t => leadMatch nee (c :: t) || hasRun nee t

/-- SQL `column ILIKE '%pat%'`: case-insensitive substring test. -/
def ilike (field pat : String) : Bool :=
  hasRun (pyLower pat).data (pyLower field).data

/-- One optional narrowing filter, applied only when the filter value is
truthy, as `if filters.country:` is — both `None` and `""` skip the filter. -/
def strFilter (o : Option String) (field : String) : Bool :=
  match o with
  | none => true
  | some s => if s = "" then true else ilike field s

/-- The candidate query of `search_addresses_by_location`: records with both
coordinates present, narrowed by the country/state/city `ILIKE` filters — all
before any distance computation. -/
def candidates (store : List DBRecord) (f : LocationSearchFilters) : List DBRecord :=
  store.filter (fun r =>
    r.lat.isSome && r.lng.isSome
      && strFilter f.country r.country && strFilter f.state r.state
      && strFilter f.city r.city)

/-- A record's distance from the search center (candidates always carry both
coordinates; an absent one defaults to 0 here). -/
noncomputable def recDistance (f : LocationSearchFilters) (r : DBRecord) : ℝ :=
  calculate_distance f.center_lat f.center_lng (r.lat.getD 0) (r.lng.getD 0)

/-- The `addresses_with_distance` list: each candidate paired with its
distance, kept iff `distance <= radius_km` (inclusive boundary). -/
noncomputable def radiusFiltered (store : List DBRecord) (f : LocationSearchFilters) :
    List (DBRecord × ℝ) :=
  ((candidates store f).map (fun r => (r, recDistance f r))).filter
    (fun x => decide (x.2 ≤ f.radius_km))

/-- The order realised by `addresses_with_distance.sort(key=lambda x: x[1])`:
Python's sort is stable, so it reorders exactly by the pair (distance,
original scan position). -/
abbrev distLe (a b : Nat × (DBRecord × ℝ)) : Prop :=
  a.2.2 < b.2.2 ∨ (a.2.2 = b.2.2 ∧ a.1 ≤ b.1)

/-- The sorted list with scan positions attached. -/
noncomputable def sortedIndexed (store : List DBRecord) (f : LocationSearchFilters) :
    List (Nat × (DBRecord × ℝ)) :=
  (radiusFiltered store f).enum.mergeSort (fun a b => decide (distLe a b))

/-- The distance-sorted `addresses_with_distance` list. -/
noncomputable def sortedByDistance (store : List DBRecord) (f : LocationSearchFilters) :
    List (DBRecord × ℝ) :=
  (sortedIndexed store f).map (fun x => x.2)

/-- `CustomerDirectoryRepository.search_addresses_by_location`: candidates with
coordinates, narrowed by filters, paired with Haversine distances, kept within
the radius, sorted ascending by distance, then paginated by the window
`[(page - 1) * page_size, (page - 1) * page_size + page_size)`; the reported
total is the number of records passing the radius filter. -/
noncomputable def search_addresses_by_location (store : List DBRecord)
    (f : LocationSearchFilters) : List (DBRecord × ℝ) × Nat :=
  let swd := sortedByDistance store f
  let total := swd.length
  let skip := (f.page - 1) * f.page_size
  ((swd.drop skip).take f.page_size, total)

/-! ### Lemmas about the search -/

theorem distLe_trans (a b c : Nat × (DBRecord × ℝ)) :
    distLe a b → distLe b c → distLe a c := by
  intro h1 h2
  rcases h1 with h1 | ⟨he1, hi1⟩ <;> rcases h2 with h2 | ⟨he2, hi2⟩
  · exact Or.inl (h1.trans h2)
  · exact Or.inl (by rw [← he2]; exact h1)
  · exact Or.inl (by rw [he1]; exact h2)
  · exact Or.inr ⟨he1.trans he2, hi1.trans hi2⟩

theorem distLe_total (a b : Nat × (DBRecord × ℝ)) : distLe a b ∨ distLe b a := by
  rcases lt_trichotomy a.2.2 b.2.2 with h | h | h
  · exact Or.inl (Or.inl h)
  · rcases Nat.le_total a.1 b.1 with h2 | h2
    · exact Or.inl (Or.inr ⟨h, h2⟩)
    · exact Or.inr (Or.inr ⟨h.symm, h2⟩)
  · exact Or.inr (Or.inl h)

/-- The sorted list is pairwise ordered by distance-then-scan-position. -/
theorem sortedIndexed_pairwise (store : List DBRecord) (f : LocationSearchFilters) :
    List.Pairwise distLe (sortedIndexed store f) := by
  have h := @List.sorted_mergeSort (Nat × (DBRecord × ℝ))
    (fun a b => decide (distLe a b))
    (fun a b c hab hbc =>
      decide_eq_true (distLe_trans a b c (of_decide_eq_true hab) (of_decide_eq_true hbc)))
    (fun a b => by
      rcases distLe_total a b with h | h
      · simp [decide_eq_true h]
      · simp [decide_eq_true h])
    (radiusFiltered store f).enum
  exact h.imp (fun hab => of_decide_eq_true hab)

/-- The sorted list is a permutation of the scan-indexed filtered list. -/
theorem sortedIndexed_perm (store : List DBRecord) (f : LocationSearchFilters) :
    (sortedIndexed store f).Perm (radiusFiltered store f).enum :=
  List.mergeSort_perm (radiusFiltered store f).enum _

/-- Everything in the returned page belongs to the radius-filtered list. -/
theorem page_mem_radiusFiltered (store : List DBRecord) (f : LocationSearchFilters) :
    ∀ x ∈ (search_addresses_by_location store f).1, x ∈ radiusFiltered store f := by
  intro x hx
  have hx2 : x ∈ sortedByDistance store f :=
    List.mem_of_mem_drop (List.mem_of_mem_take hx)
  obtain ⟨ix, hix, hxeq⟩ := List.mem_map.mp hx2
  have h1 : ix ∈ (radiusFiltered store f).enum := List.mem_mergeSort.mp hix
  have h2 : ix.2 ∈ (radiusFiltered store f).enum.map Prod.snd :=
    List.mem_map_of_mem Prod.snd h1
  rw [List.enum_map_snd] at h2
  rwa [hxeq] at h2

/-- Concatenating consecutive `page_size` windows of a list reconstructs it. -/
theorem windows_flatten (l : List α) (ps : Nat) :
    ∀ n, l.length ≤ n * ps →
      ((List.range n).map (fun k => ((l.drop (k * ps)).take ps))).flatten = l := by
  intro n
  induction n generalizing l with
  | zero =>
      intro h
      have : l = [] := List.eq_nil_of_length_eq_zero (Nat.le_zero.mp (by simpa using h))
      subst this
      simp
  | succ n ihn =>
      intro h
      rw [List.range_succ_eq_map]
      simp only [List.map_cons, List.flatten_cons, List.map_map]
      rw [Nat.zero_mul, List.drop_zero]
      have hcong : List.map ((fun k => (l.drop (k * ps)).take ps) ∘ Nat.succ) (List.range n)
          = List.map (fun k => (((l.drop ps).drop (k * ps)).take ps)) (List.range n) := by
        apply List.map_congr_left
        intro k hk
        simp only [Function.comp_apply]
        rw [List.drop_drop]
        congr 2
        rw [Nat.succ_mul]
        ring
      have hlen : (l.drop ps).length ≤ n * ps := by
        have h' : l.length ≤ n * ps + ps := by
          rw [Nat.succ_mul] at h
          exact h
        simp only [List.length_drop]
        omega
      rw [hcong, ihn (l.drop ps) hlen]
      exact List.take_append_drop ps l

/-- C5: the search considers exactly the stored records having both
coordinates present, narrowed by the country/state/city substring filters
before any distance computation, and a candidate appears in the
radius-filtered set iff its Haversine distance from the center is at most
`radius_km` (inclusive boundary); everything in the returned page passed that
filter. -/
theorem search_radius_inclusion (store : List DBRecord) (f : LocationSearchFilters)
    (r : DBRecord) (dist : ℝ) :
    ((r, dist) ∈ radiusFiltered store f ↔
      (r ∈ store ∧ r.lat.isSome = true ∧ r.lng.isSome = true
        ∧ strFilter f.country r.country = true
        ∧ strFilter f.state r.state = true
        ∧ strFilter f.city r.city = true
        ∧ dist = recDistance f r ∧ dist ≤ f.radius_km))
    ∧ (∀ x ∈ (search_addresses_by_location store f).1, x ∈ radiusFiltered store f) := by
  refine ⟨?_, page_mem_radiusFiltered store f⟩
  unfold radiusFiltered candidates
  rw [List.mem_filter]
  simp only [List.mem_map, List.mem_filter, Bool.and_eq_true, decide_eq_true_eq,
    Prod.mk.injEq]
  constructor
  · rintro ⟨⟨r', ⟨hmem, ⟨⟨⟨h1, h2⟩, h3⟩, h4⟩, h5⟩, hr, hd⟩, hle⟩
    subst hr
    exact ⟨hmem, h1, h2, h3, h4, h5, hd.symm, hle⟩
  · rintro ⟨hmem, h1, h2, h3, h4, h5, hd, hle⟩
    exact ⟨⟨r, ⟨hmem, ⟨⟨⟨h1, h2⟩, h3⟩, h4⟩, h5⟩, rfl, hd.symm⟩, hle⟩

/-- C6: for every valid page and page size, the search sorts the records
passing the radius filter ascending by distance with ties kept in stable scan
order, reports the total as the number of records passing the filter before
slicing, returns the window `[(page-1)*page_size, (page-1)*page_size +
page_size)` of the sorted list, and the concatenation of all pages equals the
filtered candidate set exactly — a permutation of it with no duplicates and
ascending distance preserved across page boundaries. -/
theorem search_pagination_spec (store : List DBRecord) (f : LocationSearchFilters)
    (hp : 1 ≤ f.page) (hs : 1 ≤ f.page_size) :
    (search_addresses_by_location store f).2 = (radiusFiltered store f).length
    ∧ (search_addresses_by_location store f).1
        = ((sortedByDistance store f).drop ((f.page - 1) * f.page_size)).take f.page_size
    ∧ List.Pairwise distLe (sortedIndexed store f)
    ∧ List.Pairwise (fun a b : DBRecord × ℝ => a.2 ≤ b.2) (sortedByDistance store f)
    ∧ (sortedIndexed store f).Perm (radiusFiltered store f).enum
    ∧ (sortedIndexed store f).Nodup
    ∧ (∀ n, (sortedByDistance store f).length ≤ n * f.page_size →
        ((List.range n).map (fun k =>
            (((sortedByDistance store f).drop (k * f.page_size)).take f.page_size))).flatten
          = sortedByDistance store f) := by
  refine ⟨?_, rfl, sortedIndexed_pairwise store f, ?_, sortedIndexed_perm store f, ?_, ?_⟩
  · show (sortedByDistance store f).length = (radiusFiltered store f).length
    unfold sortedByDistance sortedIndexed
    rw [List.length_map, List.length_mergeSort, List.enum_length]
  · unfold sortedByDistance
    rw [List.pairwise_map]
    exact (sortedIndexed_pairwise store f).imp
      (fun hab => by
        rcases hab with h | ⟨h, _⟩
        · exact le_of_lt h
        · exact le_of_eq h)
  · have henum : ((radiusFiltered store f).enum).Nodup :=
      List.Nodup.of_map Prod.fst (List.nodup_enum_map_fst _)
    exact ((sortedIndexed_perm store f).nodup_iff).mpr henum
  · exact fun n hn => windows_flatten (sortedByDistance store f) f.page_size n hn

/-- The filters of the C6 witness search: unit radius about the origin,
first page of twenty. -/
def wFilters : LocationSearchFilters :=
  ⟨0, 0, 1, none, none, none, 1, 20⟩

/-- Witness for C6 on the empty store: total 0, empty page, and the single
page concatenation reconstructs the (empty) sorted list. -/
theorem search_pagination_spec_witness :
    (search_addresses_by_location [] wFilters).2 = 0
    ∧ (search_addresses_by_location [] wFilters).1 = []
    ∧ ((List.range 1).map (fun k =>
        (((sortedByDistance [] wFilters).drop (k * wFilters.page_size)).take
          wFilters.page_size))).flatten
      = sortedByDistance [] wFilters := by
  have hnil : sortedByDistance [] wFilters = [] := by
    simp [sortedByDistance, sortedIndexed, radiusFiltered, candidates]
  have h := search_pagination_spec [] wFilters (by norm_num [wFilters]) (by norm_num [wFilters])
  refine ⟨?_, ?_, h.2.2.2.2.2.2 1 (by rw [hnil]; simp)⟩
  · rw [h.1]
    simp [radiusFiltered, candidates]
  · rw [h.2.1, hnil]
    simp

/-- `atan2` of non-negative arguments is non-negative. -/
theorem atan2_nonneg (y x : ℝ) (hy : 0 ≤ y) (hx : 0 ≤ x) : 0 ≤ atan2 y x := by
  unfold atan2
  by_cases h1 : 0 < x
  · rw [if_pos h1]
    have hdiv : 0 ≤ y / x := div_nonneg hy hx
    calc (0 : ℝ) = Real.arctan 0 := Real.arctan_zero.symm
    _ ≤ Real.arctan (y / x) := Real.arctan_strictMono.monotone hdiv
  · rw [if_neg h1, if_neg (not_lt.mpr hx)]
    by_cases h3 : 0 < y
    · rw [if_pos h3]
      linarith [Real.pi_pos]
    · rw [if_neg h3, if_neg (not_lt.mpr hy)]

/-- The Haversine distance is never negative. -/
theorem calculate_distance_nonneg (lat1 lng1 lat2 lng2 : ℝ) :
    0 ≤ calculate_distance lat1 lng1 lat2 lng2 := by
  simp only [calculate_distance]
  refine mul_nonneg (by norm_num) (mul_nonneg (by norm_num) ?_)
  exact atan2_nonneg _ _ (Real.sqrt_nonneg _) (Real.sqrt_nonneg _)

end CustomerMap
